import Mathlib

/-!
Verification of the natural-language specification of `rvtools_csv2excel.py`
against a shallow embedding of the program.

The program converts a directory of RVTools CSV exports into one xlsx
workbook.  The embedding below translates, function by function, the Python
source (`src/rvtools_csv2excel.py`):

* cell values of the loaded tables are modelled by `CellValue` (pandas cells
  are strings, int64 numbers, float64 numbers — modelled by their Python
  `repr` string — booleans, or missing);
* `get_sheet_name_from_filename`, `clean_csv_data`, `apply_data_formatting`,
  `auto_adjust_column_width`, `convert_csv_to_excel`, `find_csv_files` and
  `main` are each translated to a Lean function of the same name;
* file I/O and the pandas parser are abstracted: a `CSVFile` records, for each
  (encoding, quoting) strategy, whether `pd.read_csv` would succeed and with
  which table, plus whether the 4096-character UTF-8 sample read of the file
  succeeds and whether the sample contains a quote character;
* the openpyxl workbook is a `List Sheet`; `Workbook.move_sheet(name, i)`
  moves the named sheet by OFFSET `i` (openpyxl: `new_pos = idx + offset;
  _sheets.insert(new_pos, _sheets.pop(idx))`, and Python `list.insert` past
  the end appends), which `move_sheet` below reproduces.
-/

set_option maxRecDepth 8192

namespace RVTools

/-- A dynamic cell value as produced by `pd.read_csv` and written into a
worksheet cell.  A float is carried as its Python `repr` string (the claims
never compute with the numeric value, only with its printed form); a missing
value (`None`) is `null`.  -/
inductive CellValue where
  | str (s : String)
  | intVal (n : Int)
  | floatVal (r : String)
  | boolVal (b : Bool)
  | null
deriving DecidableEq

/-- Python `str()` of a cell value. -/
def CellValue.pyStr : CellValue → String
  | .str s => s
  | .intVal n => toString n
  | .floatVal r => r
  | .boolVal b => if b then "True" else "False"
  | .null => "None"

/-- Python truthiness of a cell value, as tested by `if cell.value:` in
`auto_adjust_column_width`.  The falsy floats are exactly the zero floats,
whose `repr` is `0.0` or `-0.0`; `None` is falsy. -/
def CellValue.truthy : CellValue → Bool
  | .str s => s != ""
  | .intVal n => n != 0
  | .floatVal r => !(r == "0.0" || r == "-0.0")
  | .boolVal b => b
  | .null => false

/-- The spec's notion of a "non-empty cell value" (used by the column-width
sentence of the spec): every value except a missing cell and the empty
string.  Numbers and booleans always print non-empty. -/
def CellValue.nonEmptyVal : CellValue → Bool
  | .str s => s != ""
  | .null => false
  | _ => true

/-- An in-memory table: `df.columns` and the data rows of the DataFrame.
pandas guarantees every row has exactly `columns.length` values; the type
does not enforce it, theorems that need it take it as a hypothesis. -/
structure Table where
  columns : List String
  rows : List (List CellValue)
deriving DecidableEq

/-- An openpyxl font: the attributes the program sets. `color` is `none` when
the `Font(...)` call passes no color. -/
structure Font where
  name : String
  size : Nat
  bold : Bool
  color : Option String
deriving DecidableEq

/-- openpyxl's default font for cells the program never styles. -/
def default_font : Font := ⟨"Calibri", 11, false, none⟩

/-- `Font(name='Verdana', size=9, bold=True, color='FFFFFF')` from
`apply_header_formatting`. -/
def header_font : Font := ⟨"Verdana", 9, true, some "FFFFFF"⟩

/-- `Font(name='Verdana', size=9)` from `apply_data_formatting`. -/
def data_font : Font := ⟨"Verdana", 9, false, none⟩

/-- `Font(name='Verdana', size=9, color='FF0000')` (red). -/
def red_font : Font := ⟨"Verdana", 9, false, some "FF0000"⟩

/-- `Font(name='Verdana', size=9, color='008000')` (green). -/
def green_font : Font := ⟨"Verdana", 9, false, some "008000"⟩

/-- `Font(name='Verdana', size=9, color='FFA500')` (orange). -/
def orange_font : Font := ⟨"Verdana", 9, false, some "FFA500"⟩

/-- A worksheet cell after the program finished with it: its value, its font,
its fill color (if set) and its horizontal alignment (if set). -/
structure StyledCell where
  value : CellValue
  font : Font
  fill : Option String
  align : Option String
deriving DecidableEq

/-- A cell that has been written but never styled (defaults untouched). -/
def raw_cell (v : CellValue) : StyledCell := ⟨v, default_font, none, none⟩

/-- The body of the per-cell loop of `apply_data_formatting`, for one data
cell: set the regular font and left alignment, override the font for the
`Powerstate` and `Config status` columns, then replace a boolean value by its
string form.  `column_name` is the value of the header cell of the cell's
column. -/
def format_data_cell (column_name : String) (v : CellValue) : StyledCell :=
  let f := data_font
  let f := if column_name = "Powerstate" ∧ v = CellValue.str "poweredOff" then red_font else f
  let f :=
    if column_name = "Config status" then
      if v = CellValue.str "green" then green_font
      else if v = CellValue.str "red" then red_font
      else if v = CellValue.str "yellow" then orange_font
      else f
    else f
  let v2 := match v with
    | CellValue.boolVal b => CellValue.str (if b then "True" else "False")
    | w => w
  ⟨v2, f, none, some "left"⟩

/-- The value mutation of `apply_data_formatting` in isolation: booleans are
replaced by `str(True)` / `str(False)`, everything else is untouched. -/
def boolFix : CellValue → CellValue
  | CellValue.boolVal b => CellValue.str (if b then "True" else "False")
  | v => v

/-- The scan of one column in `auto_adjust_column_width`: fold over the cells,
keeping the maximum `len(str(value))` of the truthy values
(`if cell.value:`). -/
def column_max_code (cells : List CellValue) : Nat :=
  cells.foldl (fun m v => if v.truthy then max m v.pyStr.length else m) 0

/-- The scan of one column as the spec words it: the maximum string length
over the non-empty values. -/
def column_max_spec (cells : List CellValue) : Nat :=
  cells.foldl (fun m v => if v.nonEmptyVal then max m v.pyStr.length else m) 0

/-- `adjusted_width = max_length + 2`, capped at 100 and floored at 8. -/
def adjusted_width (maxLength : Nat) : Nat :=
  let w := maxLength + 2
  if w > 100 then 100 else if w < 8 then 8 else w

/-- The width `auto_adjust_column_width` assigns to a column consisting of the
header cell `hdr` and the data cells `cells`. -/
def column_width_code (hdr : String) (cells : List CellValue) : Nat :=
  adjusted_width (column_max_code (CellValue.str hdr :: cells))

/-- The column width as the spec words it (maximum over non-empty values,
plus 2, clamped to [8, 100]). -/
def column_width_spec (hdr : String) (cells : List CellValue) : Nat :=
  adjusted_width (column_max_spec (CellValue.str hdr :: cells))

/-! ## Sheet names (`get_sheet_name_from_filename`) -/

/-- `os.path.basename` on a POSIX path: the part after the last `/`. -/
def basenameChars (l : List Char) : List Char :=
  (l.reverse.takeWhile (fun c => c ≠ '/')).reverse

/-- Index of the last `.` in a list of characters (Python `p.rfind('.')`),
`none` when there is no dot. -/
def lastDotIdx : List Char → Option Nat
  | [] => none
  | c :: rest =>
    match lastDotIdx rest with
    | some j => some (j + 1)
    | none => if c = '.' then some 0 else none

/-- The root part of `os.path.splitext` applied to a basename: split off the
extension at the last dot, except when every character before that dot is
itself a dot (CPython skips leading dots, so `.csv` has no extension). -/
def splitextRoot (l : List Char) : List Char :=
  match lastDotIdx l with
  | none => l
  | some d => if (l.take d).all (fun c => c == '.') then l else l.take d

/-- Python `s.replace(".csv", "")`: scan left to right and delete every
(non-overlapping) occurrence of `.csv`. -/
def removeCsv : List Char → List Char
  | '.' :: 'c' :: 's' :: 'v' :: rest => removeCsv rest
  | c :: rest => c :: removeCsv rest
  | [] => []

/-- The characters `re.sub(r'[\[\]:*?/\\]', '', ...)` strips. -/
def ILLEGAL_CHARS : List Char := ['[', ']', ':', '*', '?', '/', '\\']

/-- `get_sheet_name_from_filename(filename, prefix)`: if the basename starts
with the prefix, take the rest and delete every occurrence of `.csv`
(`str.replace`); otherwise the `os.path.splitext` root of the basename.  Then
strip the Excel-illegal characters and truncate to 31 characters. -/
def get_sheet_name_from_filename (filename pfx : String) : String :=
  let base := basenameChars filename.data
  let nm :=
    if pfx.data.isPrefixOf base then removeCsv (base.drop pfx.data.length)
    else splitextRoot base
  String.mk ((nm.filter (fun c => ¬ c ∈ ILLEGAL_CHARS)).take 31)

/-- The sheet name as claim C3 words it: in the prefix branch the name is the
remainder after the prefix "with the extension removed" (i.e. the
`os.path.splitext` root of the remainder), and otherwise the basename with
the extension removed; then strip illegal characters and truncate to 31. -/
def sheet_name_spec (filename pfx : String) : String :=
  let base := basenameChars filename.data
  let nm :=
    if pfx.data.isPrefixOf base then splitextRoot (base.drop pfx.data.length)
    else splitextRoot base
  String.mk ((nm.filter (fun c => ¬ c ∈ ILLEGAL_CHARS)).take 31)

/-! ## Table loader (`clean_csv_data`) -/

/-- A text decoding passed to `pd.read_csv`.  The third, `QUOTE_NONE`,
attempt passes no encoding, which means pandas' default UTF-8. -/
inductive Encoding where
  | utf8
  | latin1
deriving DecidableEq

/-- The quoting convention passed to `pd.read_csv`: `quotechar='"',
escapechar='\\'` when the sample contains a quote, the pandas default
otherwise, and `quoting=3` (`QUOTE_NONE`) for the last-resort attempt. -/
inductive Quoting where
  | quoteBackslash
  | defaultQuoting
  | quoteNone
deriving DecidableEq

/-- One input file, as the loader sees it.  `sampleReadOk` is whether
`open(csv_file, encoding='utf-8').read(4096)` succeeds; `sampleQuote` is
whether the file's first 4KB contains a `"` character (byte 0x22 — when the
UTF-8 sample read succeeds this is exactly the `has_quotes` the code
computes); `parse e q` is the outcome of `pd.read_csv` under encoding `e` and
quoting convention `q` (`none` = the call raises). -/
structure CSVFile where
  sampleReadOk : Bool
  sampleQuote : Bool
  parse : Encoding → Quoting → Option Table

/-- Python `str.strip()` (whitespace trimmed from both ends). -/
def pyStrip (s : String) : String :=
  let ws : Char → Bool := fun c =>
    c == ' ' || c == '\t' || c == '\n' || c == '\r' || c == '\x0b' || c == '\x0c'
  String.mk (((s.data.dropWhile ws).reverse.dropWhile ws).reverse)

/-- `df.columns = [col.strip() for col in df.columns]`, applied after every
successful parse. -/
def stripCols (t : Table) : Table :=
  { t with columns := t.columns.map pyStrip }

/-- `clean_csv_data`.  When the UTF-8 sample read succeeds, `has_quotes`
selects the quoting convention and the three attempts run in order:
UTF-8, Latin-1 (same quoting), then `QUOTE_NONE` with the default (UTF-8)
encoding.  When the sample read itself raises, `has_quotes` is never
assigned: the first attempt has already failed, the Latin-1 attempt raises
`NameError` on the unassigned `has_quotes` inside its own `try` (so no
Latin-1 parse is ever issued), and only the `QUOTE_NONE` attempt remains.
All failures end in `return None`. -/
def clean_csv_data (f : CSVFile) : Option Table :=
  if f.sampleReadOk then
    let q := if f.sampleQuote then Quoting.quoteBackslash else Quoting.defaultQuoting
    match f.parse Encoding.utf8 q with
    | some df => some (stripCols df)
    | none =>
      match f.parse Encoding.latin1 q with
      | some df => some (stripCols df)
      | none =>
        match f.parse Encoding.utf8 Quoting.quoteNone with
        | some df => some (stripCols df)
        | none => none
  else
    match f.parse Encoding.utf8 Quoting.quoteNone with
    | some df => some (stripCols df)
    | none => none

/-- The loader as claim C2 words it: quote detection is a pure function of the
file's first 4KB, the first attempt is UTF-8 with the detected quoting, on
any failure the identical parse is retried as Latin-1, then with quoting
disabled; if all fail the loader returns no table. -/
def clean_csv_data_spec (f : CSVFile) : Option Table :=
  let q := if f.sampleQuote then Quoting.quoteBackslash else Quoting.defaultQuoting
  match f.parse Encoding.utf8 q with
  | some df => some (stripCols df)
  | none =>
    match f.parse Encoding.latin1 q with
    | some df => some (stripCols df)
    | none =>
      match f.parse Encoding.utf8 Quoting.quoteNone with
      | some df => some (stripCols df)
      | none => none

/-! ## Workbook assembly (`convert_csv_to_excel`, lines 226–342) -/

/-- A worksheet of the output workbook: its tab title, its grid of cells
(row 1 is the header row), the widths `auto_adjust_column_width` assigned
(empty when the loop never ran for this sheet), and whether `freeze_panes`
was set. -/
structure Sheet where
  title : String
  rows : List (List StyledCell)
  colWidths : List Nat
  freezeHeader : Bool
deriving DecidableEq

/-- The data rows of a sheet after `apply_data_formatting`: each cell is
formatted with the value of its column's header cell (row 1), which is the
column name written from `df.columns`. -/
def formatted_rows (t : Table) : List (List StyledCell) :=
  t.rows.map (fun r => List.zipWith format_data_cell t.columns r)

/-- The values of column `j` of the formatted data rows (what
`auto_adjust_column_width` sees below the header). -/
def data_column_values (t : Table) (j : Nat) : List CellValue :=
  (formatted_rows t).filterMap (fun r => (r[j]?).map StyledCell.value)

/-- One fully processed data sheet: header written from `df.columns` and
styled by `apply_header_formatting`, data rows written from `df.iterrows()`
(for a freshly parsed DataFrame the index labels are `0..N-1`, so row `i`
lands in worksheet row `i+2`) and styled by `apply_data_formatting`, column
widths from `auto_adjust_column_width` (run after the value-mutating data
formatting), and the header row frozen. -/
def full_sheet (nm : String) (t : Table) : Sheet :=
  { title := nm
  , rows :=
      t.columns.map (fun c => ⟨CellValue.str c, header_font, some "000000", some "left"⟩)
        :: formatted_rows t
  , colWidths :=
      t.columns.enum.map (fun p => column_width_code p.2 (data_column_values t p.1))
  , freezeHeader := true }

/-- The column widths as the spec's column-width sentence computes them. -/
def sheet_spec_widths (t : Table) : List Nat :=
  t.columns.enum.map (fun p => column_width_spec p.2 (data_column_values t p.1))

/-- A sheet abandoned mid-write by an exception: the header row and the first
`k` data rows were written (raw, unstyled — formatting runs only after all
writes), no widths were assigned and the panes were never frozen. -/
def truncated_sheet (nm : String) (t : Table) (k : Nat) : Sheet :=
  { title := nm
  , rows := t.columns.map (fun c => raw_cell (CellValue.str c))
      :: (t.rows.take k).map (fun r => r.map raw_cell)
  , colWidths := []
  , freezeHeader := false }

/-- The synthetic `vMetaData` sheet (lines 297–307): four header labels and
one data row with the fixed float `4.4`, the fixed version string, the
creation timestamp `now`, and a fixed server string.  No formatting is ever
applied to it. -/
def metadata_sheet (now : CellValue) : Sheet :=
  { title := "vMetaData"
  , rows :=
      [ [ raw_cell (CellValue.str "RVTools major version")
        , raw_cell (CellValue.str "RVTools version")
        , raw_cell (CellValue.str "xlsx creation datetime")
        , raw_cell (CellValue.str "Server") ]
      , [ raw_cell (CellValue.floatVal "4.4")
        , raw_cell (CellValue.str "4.4.5.0")
        , raw_cell now
        , raw_cell (CellValue.str "Converted by RVTools CSV2Excel Tool") ] ]
  , colWidths := []
  , freezeHeader := false }

/-- One input file of the conversion loop: its path, its loader abstraction,
and where (if anywhere) an exception interrupts the write/format phase:
`failAt = some k` means an exception is raised after `k` data rows were
written (the per-file `except` catches it, logs, and the loop continues);
`none` means the file processes to completion. -/
structure InputFile where
  filename : String
  csv : CSVFile
  failAt : Option Nat

/-- The loop state of `convert_csv_to_excel`: the workbook's sheets in
creation order and the `processed_sheets` name list. -/
structure ProcState where
  sheets : List Sheet
  processed : List String
deriving DecidableEq

/-- One iteration of the `for csv_file in csv_files` loop: derive the sheet
name, load (a `None` table is skipped with `continue` before any sheet is
created), create the sheet and record its name, then write and style it —
an exception at that stage leaves the truncated sheet and the recorded name
behind (the workbook is not rolled back). -/
def process_file (pfx : String) (st : ProcState) (f : InputFile) : ProcState :=
  let nm := get_sheet_name_from_filename f.filename pfx
  match clean_csv_data f.csv with
  | none => st
  | some df =>
    match f.failAt with
    | some k => ⟨st.sheets ++ [truncated_sheet nm df k], st.processed ++ [nm]⟩
    | none => ⟨st.sheets ++ [full_sheet nm df], st.processed ++ [nm]⟩

/-- The state after the whole conversion loop. -/
def assembled (pfx : String) (files : List InputFile) : ProcState :=
  files.foldl (process_file pfx) ⟨[], []⟩

/-- What one file contributes to the workbook (nothing, a truncated sheet, or
a full sheet). -/
def contrib (pfx : String) (f : InputFile) : List Sheet :=
  (process_file pfx ⟨[], []⟩ f).sheets

/-- What one file contributes to `processed_sheets`. -/
def contribNames (pfx : String) (f : InputFile) : List String :=
  (process_file pfx ⟨[], []⟩ f).processed

/-! ## Sheet ordering -/

/-- The hardcoded `STANDARD_SHEET_ORDER` list (note that `vMetaData` is its
last element). -/
def STANDARD_SHEET_ORDER : List String :=
  [ "vInfo", "vCPU", "vMemory", "vDisk", "vPartition", "vNetwork", "vCD", "vUSB"
  , "vSnapshot", "vTools", "vSource", "vRP", "vCluster", "vHost", "vHBA", "vNIC"
  , "vSwitch", "vPort", "dvSwitch", "dvPort", "vSC_VMK", "vDatastore", "vMultiPath"
  , "vLicense", "vFileInfo", "vHealth", "vMetaData" ]

/-- Lines 313–326: the `new_order` list — walk `STANDARD_SHEET_ORDER` keeping
every name that was processed (and always `vMetaData`), append the processed
names not yet present, and finally `vMetaData` if it is still missing. -/
def build_new_order (processed : List String) : List String :=
  let o1 := STANDARD_SHEET_ORDER.foldl
    (fun acc sheet => if sheet ∈ processed ∨ sheet = "vMetaData" then acc ++ [sheet] else acc) []
  let o2 := processed.foldl
    (fun acc sheet => if sheet ∈ acc then acc else acc ++ [sheet]) o1
  if "vMetaData" ∈ o2 then o2 else o2 ++ ["vMetaData"]

/-- Python `list.insert(pos, x)`: inserts before `pos`, appending when `pos`
is past the end. -/
def insertClamped (pos : Nat) (x : α) (l : List α) : List α :=
  l.take pos ++ x :: l.drop pos

/-- openpyxl's `Workbook.move_sheet(name, offset)`: find the sheet's current
index, pop it, and re-insert it at `idx + offset` — the second argument is an
OFFSET, not a target position (`new_pos = idx + offset;
self._sheets.insert(new_pos, self._sheets.pop(idx))`). -/
def move_sheet (sheets : List Sheet) (nm : String) (offset : Nat) : List Sheet :=
  match sheets.findIdx? (fun s => s.title = nm) with
  | none => sheets
  | some idx =>
    match sheets[idx]? with
    | none => sheets
    | some s => insertClamped (idx + offset) s (sheets.eraseIdx idx)

/-- Lines 329–331: `for i, sheet_name in enumerate(new_order):
if sheet_name in workbook.sheetnames: workbook.move_sheet(sheet_name, i)`. -/
def reorder_sheets (sheets : List Sheet) (new_order : List String) : List Sheet :=
  new_order.enum.foldl
    (fun ws p => if p.2 ∈ ws.map Sheet.title then move_sheet ws p.2 p.1 else ws) sheets

/-- `convert_csv_to_excel`: run the per-file loop, append the metadata sheet,
compute `new_order` and replay the `move_sheet` loop.  The workbook is then
saved unconditionally; the returned list is the saved workbook's sheets in
final order.  (The output path and verbose logging are I/O and not
modelled.) -/
def convert_csv_to_excel (files : List InputFile) (pfx : String) (now : CellValue) :
    List Sheet :=
  let st := assembled pfx files
  reorder_sheets (st.sheets ++ [metadata_sheet now]) (build_new_order st.processed)

/-! ## File discovery (`find_csv_files`) and `main` -/

/-- The error `os.listdir` raises on a missing directory. -/
inductive FsError where
  | fileNotFound
deriving DecidableEq

/-- The input directory: whether it exists, its immediate entries
(`os.listdir` order), and every file an `os.walk` traversal yields (in
traversal order). -/
structure FileSystemDir where
  present : Bool
  entries : List String
  walkFiles : List String

/-- The filter of `find_csv_files`: `file.lower().endswith('.csv')` and, when
a prefix is configured, `file.startswith(prefix)`. -/
def matches_csv_filter (pfxOpt : Option String) (nm : String) : Bool :=
  List.isSuffixOf ['.', 'c', 's', 'v'] (nm.data.map Char.toLower)
    && (match pfxOpt with
        | none => true
        | some p => p.data.isPrefixOf nm.data)

/-- `find_csv_files`.  Non-recursive: `os.listdir` raises `FileNotFoundError`
on a missing directory.  Recursive: `os.walk` passes `scandir` errors to its
`onerror` callback, which is `None` here, so a missing directory silently
yields no entries at all. -/
def find_csv_files (d : FileSystemDir) (recursive : Bool) (pfxOpt : Option String) :
    Except FsError (List String) :=
  if recursive then
    Except.ok ((if d.present then d.walkFiles else []).filter (matches_csv_filter pfxOpt))
  else if d.present then
    Except.ok (d.entries.filter (matches_csv_filter pfxOpt))
  else
    Except.error FsError.fileNotFound

/-- The observable outcome of `main`: an uncaught discovery error, the
"No CSV files found" early return (no workbook is written), or a completed
conversion with the saved workbook. -/
inductive RunResult where
  | fatal (e : FsError)
  | noFiles
  | completed (wb : List Sheet)

/-- `main`: discover (passing `args.prefix if args.prefix else None`), return
early when nothing was found, otherwise convert.  `csvOf` and `failOf` give
each discovered path its loader abstraction and failure point. -/
def main_run (d : FileSystemDir) (recursive : Bool) (pfxArg : String)
    (csvOf : String → CSVFile) (failOf : String → Option Nat) (now : CellValue) :
    RunResult :=
  let pfxOpt := if pfxArg = "" then none else some pfxArg
  match find_csv_files d recursive pfxOpt with
  | Except.error e => RunResult.fatal e
  | Except.ok [] => RunResult.noFiles
  | Except.ok files =>
    RunResult.completed
      (convert_csv_to_excel (files.map (fun n => ⟨n, csvOf n, failOf n⟩)) pfxArg now)

/-! ## Concrete inputs used by witnesses and counterexamples -/

/-- A one-column, one-row table. -/
def tblA : Table := ⟨["A"], [[CellValue.str "x"]]⟩

/-- A file that parses cleanly on the first (UTF-8, default quoting)
attempt. -/
def simpleCSV (t : Table) : CSVFile :=
  { sampleReadOk := true
  , sampleQuote := false
  , parse := fun e q =>
      match e, q with
      | Encoding.utf8, Quoting.defaultQuoting => some t
      | _, _ => none }

/-- A file every parse attempt rejects. -/
def hopelessCSV : CSVFile :=
  { sampleReadOk := true, sampleQuote := false, parse := fun _ _ => none }

/-- A file whose first 4KB is not valid UTF-8 (the sample read raises) but
which Latin-1 would parse fine: the code's Latin-1 retry dies on the
unassigned `has_quotes` and the file is skipped. -/
def latin1OnlyCSV : CSVFile :=
  { sampleReadOk := false
  , sampleQuote := false
  , parse := fun e q =>
      match e, q with
      | Encoding.latin1, Quoting.defaultQuoting => some ⟨["B"], [[CellValue.intVal 1]]⟩
      | _, _ => none }

/-- The three input files of the spec's ordering example, in processing order
`vNetwork`, `vInfo`, `vCustomX`. -/
def c1Files : List InputFile :=
  [ ⟨"RVTools_tabvNetwork.csv", simpleCSV tblA, none⟩
  , ⟨"RVTools_tabvInfo.csv", simpleCSV tblA, none⟩
  , ⟨"RVTools_tabvCustomX.csv", simpleCSV tblA, none⟩ ]

/-! ## Helper lemmas -/

/-- The per-cell formatting never changes a non-boolean value and stringifies
a boolean one, whatever the column header is. -/
theorem format_data_cell_value (h : String) (v : CellValue) :
    (format_data_cell h v).value = boolFix v := by
  cases v <;> rfl

/-- Zipping a header list with a row of equal length and formatting yields
exactly the boolean-fixed row values. -/
theorem zipWith_format_value (hs : List String) (r : List CellValue)
    (hlen : hs.length = r.length) :
    (List.zipWith format_data_cell hs r).map StyledCell.value = r.map boolFix := by
  induction hs generalizing r with
  | nil =>
    cases r with
    | nil => rfl
    | cons v r => simp at hlen
  | cons h hs ih =>
    cases r with
    | nil => simp at hlen
    | cons v r =>
      simp only [List.zipWith_cons_cons, List.map_cons, format_data_cell_value]
      simp only [List.length_cons, Nat.add_right_cancel_iff] at hlen
      rw [ih r hlen]

/-- A truthy value is non-empty in the spec's sense. -/
theorem truthy_nonEmpty {v : CellValue} (h : v.truthy = true) : v.nonEmptyVal = true := by
  cases v <;> simp_all [CellValue.truthy, CellValue.nonEmptyVal]

/-- A falsy but non-empty value prints in at most 5 characters (`0`, `0.0`,
`-0.0` or `False`). -/
theorem falsy_nonEmpty_small {v : CellValue} (h1 : v.truthy = false)
    (h2 : v.nonEmptyVal = true) : v.pyStr.length ≤ 5 := by
  cases v with
  | str s =>
    simp [CellValue.truthy] at h1
    simp [CellValue.nonEmptyVal, h1] at h2
  | intVal n =>
    have hn : n = 0 := by simpa [CellValue.truthy] using h1
    subst hn; decide
  | floatVal r =>
    have himp : ¬r = "0.0" → r = "-0.0" := by simpa [CellValue.truthy] using h1
    by_cases hc : r = "0.0"
    · subst hc; decide
    · have hc2 := himp hc
      subst hc2; decide
  | boolVal b =>
    have hb : b = false := by simpa [CellValue.truthy] using h1
    subst hb; decide
  | null => simp [CellValue.nonEmptyVal] at h2

/-- The truthy-scan of a column never exceeds the non-empty-scan. -/
theorem column_scan_le (cells : List CellValue) :
    ∀ m1 m2, m1 ≤ m2 →
      cells.foldl (fun m v => if v.truthy then max m v.pyStr.length else m) m1
        ≤ cells.foldl (fun m v => if v.nonEmptyVal then max m v.pyStr.length else m) m2 := by
  induction cells with
  | nil => intro m1 m2 h; exact h
  | cons v cells ih =>
    intro m1 m2 h
    simp only [List.foldl_cons]
    cases ht : v.truthy with
    | true =>
      rw [truthy_nonEmpty ht, if_pos rfl, if_pos rfl]
      exact ih _ _ (max_le_max h le_rfl)
    | false =>
      rw [if_neg (by simp)]
      cases hn : v.nonEmptyVal with
      | true =>
        rw [if_pos rfl]
        exact ih _ _ (le_trans h (le_max_left _ _))
      | false =>
        rw [if_neg (by simp)]
        exact ih _ _ h

/-- The non-empty-scan of a column exceeds the truthy-scan by at most the
print width of a falsy value, which is at most 5. -/
theorem column_scan_ge (cells : List CellValue) :
    ∀ m1 m2, m1 ≤ max m2 5 →
      cells.foldl (fun m v => if v.nonEmptyVal then max m v.pyStr.length else m) m1
        ≤ max (cells.foldl (fun m v => if v.truthy then max m v.pyStr.length else m) m2) 5 := by
  induction cells with
  | nil => intro m1 m2 h; exact h
  | cons v cells ih =>
    intro m1 m2 h
    simp only [List.foldl_cons]
    cases hn : v.nonEmptyVal with
    | false =>
      have ht : v.truthy = false := by
        cases ht : v.truthy with
        | false => rfl
        | true => rw [truthy_nonEmpty ht] at hn; cases hn
      rw [if_neg (by simp), ht, if_neg (by simp)]
      exact ih _ _ h
    | true =>
      rw [if_pos rfl]
      cases ht : v.truthy with
      | true =>
        rw [if_pos rfl]
        refine ih _ _ (max_le (le_trans h (max_le_max (le_max_left _ _) le_rfl)) ?_)
        exact le_trans (le_max_right m2 _) (le_max_left _ _)
      | false =>
        have hsmall := falsy_nonEmpty_small ht hn
        rw [if_neg (by simp)]
        exact ih _ _ (max_le h (le_trans hsmall (le_max_right m2 5)))

/-- The code's column width and the spec's column width always agree: they
can only differ through falsy-but-non-empty values, whose print width plus
the padding stays below the floor of 8. -/
theorem column_width_code_eq_spec (hdr : String) (cells : List CellValue) :
    column_width_code hdr cells = column_width_spec hdr cells := by
  have h1 : column_max_code (CellValue.str hdr :: cells)
      ≤ column_max_spec (CellValue.str hdr :: cells) :=
    column_scan_le _ 0 0 le_rfl
  have h2 : column_max_spec (CellValue.str hdr :: cells)
      ≤ max (column_max_code (CellValue.str hdr :: cells)) 5 :=
    column_scan_ge _ 0 0 (le_max_left 0 5)
  rcases le_max_iff.mp h2 with h2' | h2'
  · unfold column_width_code column_width_spec
    rw [le_antisymm h1 h2']
  · unfold column_width_code column_width_spec
    simp only [adjusted_width]
    split_ifs <;> omega

/-! ## Claim C3 — sheet-name derivation -/

/-- `str.replace(".csv", "")` keeps a character other than `.` and scans
on. -/
theorem removeCsv_cons_ne (c : Char) (l : List Char) (h : ¬ c = '.') :
    removeCsv (c :: l) = c :: removeCsv l := by
  rw [removeCsv.eq_def]
  split
  next rest heq =>
    rw [List.cons.injEq] at heq
    exact absurd heq.1 h
  next c2 rest x1 x2 heq =>
    rw [List.cons.injEq] at heq
    rw [heq.1, heq.2]
  next heq => exact absurd heq (by simp)

/-- On a dot-free stem followed by `.csv`, deleting every `.csv` occurrence
is exactly dropping the extension. -/
theorem removeCsv_append_csv (nm : List Char) (h : '.' ∉ nm) :
    removeCsv (nm ++ ['.', 'c', 's', 'v']) = nm := by
  induction nm with
  | nil => rfl
  | cons c nm ih =>
    have hc : ¬ c = '.' := fun hh => h (hh ▸ List.mem_cons_self c nm)
    rw [List.cons_append, removeCsv_cons_ne c _ hc,
      ih (fun hz => h (List.mem_cons_of_mem c hz))]

/-- The last dot of `l ++ m` sits `l.length` places beyond the last dot of
`m`. -/
theorem lastDotIdx_append_some (l m : List Char) (j : Nat) (h : lastDotIdx m = some j) :
    lastDotIdx (l ++ m) = some (l.length + j) := by
  induction l with
  | nil => simpa using h
  | cons c l ih =>
    rw [List.cons_append]
    show (match lastDotIdx (l ++ m) with
      | some j => some (j + 1)
      | none => if c = '.' then some 0 else none) = some ((c :: l).length + j)
    rw [ih]
    show some (l.length + j + 1) = some ((c :: l).length + j)
    rw [List.length_cons]
    congr 1
    omega

/-- On a non-empty dot-free stem followed by `.csv`, `os.path.splitext`
drops exactly the extension. -/
theorem splitextRoot_append_csv (nm : List Char) (hne : nm ≠ []) (h : '.' ∉ nm) :
    splitextRoot (nm ++ ['.', 'c', 's', 'v']) = nm := by
  have hd : lastDotIdx (nm ++ ['.', 'c', 's', 'v']) = some nm.length := by
    simpa using lastDotIdx_append_some nm ['.', 'c', 's', 'v'] 0 rfl
  simp only [splitextRoot, hd, List.take_left]
  rcases nm with _ | ⟨c, nm⟩
  · exact absurd rfl hne
  · have hc : ¬ c = '.' := fun hh => h (hh ▸ List.mem_cons_self c nm)
    rw [if_neg ?_]
    simp only [List.all_cons, Bool.and_eq_true, beq_iff_eq]
    intro hall
    exact hc hall.1

/-- A list is a (boolean) prefix of itself followed by anything. -/
theorem isPrefixOf_append_self (a b : List Char) : a.isPrefixOf (a ++ b) = true := by
  induction a with
  | nil => simp [List.isPrefixOf]
  | cons c a ih => simp [List.isPrefixOf, ih]

/-- `takeWhile` keeps a list all of whose elements satisfy the predicate. -/
theorem takeWhile_all (p : Char → Bool) (l : List Char) (h : ∀ c ∈ l, p c = true) :
    l.takeWhile p = l := by
  induction l with
  | nil => rfl
  | cons c l ih =>
    simp [List.takeWhile_cons, h c (List.mem_cons_self c l),
      ih (fun z hz => h z (List.mem_cons_of_mem c hz))]

/-- `os.path.basename` of a slash-free path is the path itself. -/
theorem basenameChars_no_slash (l : List Char) (h : '/' ∉ l) : basenameChars l = l := by
  unfold basenameChars
  rw [takeWhile_all _ _ ?_, List.reverse_reverse]
  intro c hc
  simp only [decide_eq_true_eq]
  intro hcc
  exact h (hcc ▸ (List.mem_reverse.mp hc))

/-- Claim C3 (amended): the derived sheet name is a pure function of
(filename, prefix), is at most 31 characters long, and contains no character
of the illegal set.  In the non-prefix branch it is the basename with the
extension removed, as the claim states.  In the prefix branch the code
removes every occurrence of the substring `.csv` from the remainder rather
than the extension; this coincides with extension removal whenever the
remainder is a non-empty dot-free stem followed by `.csv` (in particular for
every standard `RVTools_tabvXxx.csv` export name). -/
theorem C3_sheet_name (filename pfxS : String) :
    (get_sheet_name_from_filename filename pfxS).length ≤ 31
  ∧ (∀ c ∈ (get_sheet_name_from_filename filename pfxS).data, c ∉ ILLEGAL_CHARS)
  ∧ (pfxS.data.isPrefixOf (basenameChars filename.data) = false →
      get_sheet_name_from_filename filename pfxS = sheet_name_spec filename pfxS)
  ∧ (∀ nm : List Char, filename.data = pfxS.data ++ nm ++ ['.', 'c', 's', 'v'] →
      nm ≠ [] → '.' ∉ nm → '/' ∉ filename.data →
      get_sheet_name_from_filename filename pfxS = sheet_name_spec filename pfxS) := by
  refine ⟨?_, ?_, ?_, ?_⟩
  · show (List.take 31 _).length ≤ 31
    rw [List.length_take]
    exact min_le_left _ _
  · intro c hc
    have hmem := List.take_subset 31 _ hc
    have hp := (List.mem_filter.mp hmem).2
    simpa using hp
  · intro hpre
    simp only [get_sheet_name_from_filename, sheet_name_spec, hpre, Bool.false_eq_true,
      if_false]
  · intro nm hdata hne hdot hslash
    have hbase : basenameChars filename.data = filename.data :=
      basenameChars_no_slash _ hslash
    have hassoc : filename.data = pfxS.data ++ (nm ++ ['.', 'c', 's', 'v']) := by
      rw [hdata, List.append_assoc]
    simp only [get_sheet_name_from_filename, sheet_name_spec, hbase]
    rw [hassoc]
    simp [isPrefixOf_append_self, List.drop_left, removeCsv_append_csv nm hdot,
      splitextRoot_append_csv nm hne hdot]

/-- Witness for C3: the standard export name `RVTools_tabvInfo.csv` (prefix
branch, extension removal and `.csv` removal agree) and a non-prefixed name
(else branch). -/
theorem C3_sheet_name_witness :
    (get_sheet_name_from_filename "RVTools_tabvInfo.csv" "RVTools_tab").length ≤ 31
  ∧ get_sheet_name_from_filename "other.csv" "RVTools_tab"
      = sheet_name_spec "other.csv" "RVTools_tab"
  ∧ get_sheet_name_from_filename "RVTools_tabvInfo.csv" "RVTools_tab"
      = sheet_name_spec "RVTools_tabvInfo.csv" "RVTools_tab" :=
  ⟨(C3_sheet_name "RVTools_tabvInfo.csv" "RVTools_tab").1,
   (C3_sheet_name "other.csv" "RVTools_tab").2.2.1 (by decide),
   (C3_sheet_name "RVTools_tabvInfo.csv" "RVTools_tab").2.2.2
     ['v', 'I', 'n', 'f', 'o'] (by decide) (by decide) (by decide) (by decide)⟩

/-- Counterexample to C3 as stated: on `RVTools_tabvDisk.csv.csv` the claim's
rule ("the remainder after the prefix with the extension removed") yields
`vDisk.csv`, but the code's `str.replace` deletes both `.csv` occurrences
and yields `vDisk`. -/
theorem C3_counterexample :
    get_sheet_name_from_filename "RVTools_tabvDisk.csv.csv" "RVTools_tab" = "vDisk"
  ∧ sheet_name_spec "RVTools_tabvDisk.csv.csv" "RVTools_tab" = "vDisk.csv"
  ∧ get_sheet_name_from_filename "RVTools_tabvDisk.csv.csv" "RVTools_tab"
      ≠ sheet_name_spec "RVTools_tabvDisk.csv.csv" "RVTools_tab" :=
  ⟨by decide, by decide, by decide⟩

/-! ## Claim C2 — loader fallback chain -/

/-- Claim C2 (amended): as long as the UTF-8 read of the first 4KB sample
succeeds, the loader behaves exactly as the claim says — UTF-8 parse with
quoting chosen by the sample's quote character, then the identical parse as
Latin-1, then quoting disabled, with failure of all attempts meaning no
table.  When the sample read itself fails, the Latin-1 retry dies at once on
the unassigned `has_quotes` and only the quoting-disabled UTF-8 attempt
remains.  A file whose every attempt fails yields no table and contributes
nothing to the workbook (it is skipped, the run continues). -/
theorem C2_loader_fallback (f : CSVFile) :
    (f.sampleReadOk = true → clean_csv_data f = clean_csv_data_spec f)
  ∧ (f.sampleReadOk = false →
      clean_csv_data f = (f.parse Encoding.utf8 Quoting.quoteNone).map stripCols)
  ∧ ((∀ e q, f.parse e q = none) → clean_csv_data f = none)
  ∧ (∀ (pfx nm : String) (fa : Option Nat), clean_csv_data f = none →
      contrib pfx ⟨nm, f, fa⟩ = [] ∧ contribNames pfx ⟨nm, f, fa⟩ = []) := by
  refine ⟨?_, ?_, ?_, ?_⟩
  · intro h
    simp only [clean_csv_data, clean_csv_data_spec, h, if_pos]
  · intro h
    simp only [clean_csv_data, h, Bool.false_eq_true, if_false]
    cases f.parse Encoding.utf8 Quoting.quoteNone <;> rfl
  · intro h
    simp only [clean_csv_data, h]
    cases f.sampleReadOk <;> simp
  · intro pfx nm fa h
    simp [contrib, contribNames, process_file, h]

/-- Witness for C2: a file that parses on the first attempt satisfies the
sample-read hypothesis, and a file whose every attempt fails is skipped. -/
theorem C2_loader_fallback_witness :
    clean_csv_data (simpleCSV tblA) = clean_csv_data_spec (simpleCSV tblA)
  ∧ clean_csv_data latin1OnlyCSV
      = (latin1OnlyCSV.parse Encoding.utf8 Quoting.quoteNone).map stripCols
  ∧ clean_csv_data hopelessCSV = none
  ∧ contrib "RVTools_tab" ⟨"RVTools_tabvCPU.csv", hopelessCSV, none⟩ = []
  ∧ contribNames "RVTools_tab" ⟨"RVTools_tabvCPU.csv", hopelessCSV, none⟩ = [] :=
  ⟨(C2_loader_fallback (simpleCSV tblA)).1 rfl,
   (C2_loader_fallback latin1OnlyCSV).2.1 rfl,
   (C2_loader_fallback hopelessCSV).2.2.1 (fun e q => by cases e <;> cases q <;> rfl),
   ((C2_loader_fallback hopelessCSV).2.2.2 "RVTools_tab" "RVTools_tabvCPU.csv" none
     ((C2_loader_fallback hopelessCSV).2.2.1 (fun e q => by cases e <;> cases q <;> rfl))).1,
   ((C2_loader_fallback hopelessCSV).2.2.2 "RVTools_tab" "RVTools_tabvCPU.csv" none
     ((C2_loader_fallback hopelessCSV).2.2.1 (fun e q => by cases e <;> cases q <;> rfl))).2⟩

/-- Counterexample to C2 as stated: `latin1OnlyCSV` is a file whose first 4KB
is not valid UTF-8 but which the Latin-1 parse would read fine; the claim
("on any failure it retries the identical parse decoding as Latin-1")
predicts the Latin-1 table, but the code returns no table — the Latin-1
retry crashes on the unassigned `has_quotes` before issuing any parse. -/
theorem C2_counterexample :
    clean_csv_data latin1OnlyCSV = none
  ∧ clean_csv_data_spec latin1OnlyCSV = some ⟨["B"], [[CellValue.intVal 1]]⟩
  ∧ clean_csv_data latin1OnlyCSV ≠ clean_csv_data_spec latin1OnlyCSV := by
  refine ⟨by decide, by decide, by decide⟩

/-! ## Claim C4 — round-trip of table contents -/

/-- Claim C4 (confirmed): a loaded table with N data rows and M columns (all
rows of a DataFrame have exactly M values) becomes a sheet with N+1 rows —
the header row carrying exactly the column names — every row M cells wide,
and the data cell values equal to the source values except that booleans are
replaced by their Python string form. -/
theorem C4_round_trip (nm : String) (t : Table)
    (hrect : ∀ r ∈ t.rows, r.length = t.columns.length) :
    (full_sheet nm t).rows.length = t.rows.length + 1
  ∧ (full_sheet nm t).rows.head?.map (fun row => row.map StyledCell.value)
      = some (t.columns.map CellValue.str)
  ∧ (∀ row ∈ (full_sheet nm t).rows, row.length = t.columns.length)
  ∧ (full_sheet nm t).rows.tail.map (fun row => row.map StyledCell.value)
      = t.rows.map (fun r => r.map boolFix) := by
  refine ⟨?_, ?_, ?_, ?_⟩
  · simp [full_sheet, formatted_rows]
  · simp [full_sheet, List.map_map]
  · intro row hrow
    simp only [full_sheet, List.mem_cons] at hrow
    rcases hrow with hhead | hdata
    · subst hhead; simp
    · simp only [formatted_rows, List.mem_map] at hdata
      obtain ⟨r, hr, hrow⟩ := hdata
      subst hrow
      rw [List.length_zipWith, hrect r hr, min_self]
  · simp only [full_sheet, List.tail_cons, formatted_rows, List.map_map]
    refine List.map_congr_left ?_
    intro r hr
    exact zipWith_format_value t.columns r (hrect r hr).symm

/-- Witness for C4 at a concrete two-row table with a boolean cell. -/
theorem C4_round_trip_witness :
    (full_sheet "vInfo" ⟨["VM", "Template"],
        [[CellValue.str "vm1", CellValue.boolVal false],
         [CellValue.str "vm2", CellValue.boolVal true]]⟩).rows.length = 3
  ∧ (full_sheet "vInfo" ⟨["VM", "Template"],
        [[CellValue.str "vm1", CellValue.boolVal false],
         [CellValue.str "vm2", CellValue.boolVal true]]⟩).rows.tail.map
          (fun row => row.map StyledCell.value)
      = [[CellValue.str "vm1", CellValue.str "False"],
         [CellValue.str "vm2", CellValue.str "True"]] :=
  ⟨(C4_round_trip "vInfo" _ (by decide)).1,
   (C4_round_trip "vInfo" _ (by decide)).2.2.2⟩

/-! ## Claim C5 — column widths -/

/-- Claim C5 (confirmed): every column width the program assigns equals the
spec's formula — maximum string length over the non-empty cell values of
header and data, plus 2, clamped to [8, 100].  (The code's scan skips all
falsy values, the spec's only the empty ones, but the extra values print in
at most 5 characters, which the floor of 8 absorbs.)  A column whose longest
value has 3 characters gets the floor 8, one with a 500-character value gets
the cap 100. -/
theorem C5_column_width :
    (∀ (nm : String) (t : Table), (full_sheet nm t).colWidths = sheet_spec_widths t)
  ∧ column_width_code "ab" [CellValue.str "abc"] = 8
  ∧ column_width_code "ab" [CellValue.str (String.mk (List.replicate 500 'a'))] = 100 := by
  refine ⟨?_, by decide, by decide⟩
  intro nm t
  simp only [full_sheet, sheet_spec_widths]
  refine List.map_congr_left ?_
  intro p _
  exact column_width_code_eq_spec p.2 (data_column_values t p.1)

/-! ## Claim C6 — Powerstate styling -/

/-- The font `apply_data_formatting` gives a cell in a `Powerstate` column:
red exactly on the value `poweredOff`, the regular data font otherwise. -/
theorem format_powerstate_font (v : CellValue) :
    (format_data_cell "Powerstate" v).font
      = if v = CellValue.str "poweredOff" then red_font else data_font := by
  by_cases h : v = CellValue.str "poweredOff"
  · subst h; decide
  · rw [if_neg h]
    simp [format_data_cell, h]

/-- Claim C6 (confirmed): a data cell under the header `Powerstate` is
rendered with the red font exactly when its value is the string
`poweredOff`; for every other value it keeps the regular data font. -/
theorem C6_powerstate_style (v : CellValue) :
    ((format_data_cell "Powerstate" v).font = red_font ↔ v = CellValue.str "poweredOff")
  ∧ (¬ v = CellValue.str "poweredOff" →
      (format_data_cell "Powerstate" v).font = data_font) := by
  constructor
  · rw [format_powerstate_font]
    by_cases h : v = CellValue.str "poweredOff"
    · simp [h]
    · simp only [if_neg h]
      constructor
      · intro hfont
        exact absurd hfont (by decide)
      · intro hv; exact absurd hv h
  · intro h
    rw [format_powerstate_font, if_neg h]

/-- Witness for C6: `poweredOn` keeps the regular font, `poweredOff` turns
red. -/
theorem C6_powerstate_style_witness :
    (format_data_cell "Powerstate" (CellValue.str "poweredOn")).font = data_font
  ∧ (format_data_cell "Powerstate" (CellValue.str "poweredOff")).font = red_font :=
  ⟨(C6_powerstate_style (CellValue.str "poweredOn")).2 (by decide),
   (C6_powerstate_style (CellValue.str "poweredOff")).1.mpr rfl⟩

/-! ## Assembly and ordering lemmas -/

/-- One loop iteration only appends to the workbook and to
`processed_sheets`; what it appends depends on the file alone. -/
theorem process_file_eq (pfx : String) (st : ProcState) (f : InputFile) :
    process_file pfx st f
      = ⟨st.sheets ++ contrib pfx f, st.processed ++ contribNames pfx f⟩ := by
  simp only [process_file, contrib, contribNames]
  rcases hc : clean_csv_data f.csv with _ | t
  · simp only [hc]
    cases st
    simp
  · simp only [hc]
    rcases hf : f.failAt with _ | k <;> simp

/-- Folding the conversion loop from any start state appends what the loop
would build from the empty state. -/
theorem assembled_shift (pfx : String) (files : List InputFile) :
    ∀ st : ProcState, files.foldl (process_file pfx) st
      = ⟨st.sheets ++ (assembled pfx files).sheets,
         st.processed ++ (assembled pfx files).processed⟩ := by
  induction files with
  | nil =>
    intro st
    cases st
    simp [assembled]
  | cons f fs ih =>
    intro st
    simp only [List.foldl_cons]
    rw [ih (process_file pfx st f), process_file_eq pfx st f]
    have hr : assembled pfx (f :: fs)
        = ⟨contrib pfx f ++ (assembled pfx fs).sheets,
           contribNames pfx f ++ (assembled pfx fs).processed⟩ := by
      rw [assembled, List.foldl_cons, ih (process_file pfx ⟨[], []⟩ f),
        process_file_eq pfx ⟨[], []⟩ f]
      simp
    rw [hr]
    simp [List.append_assoc]

/-- The conversion loop distributes over concatenation of the file list. -/
theorem assembled_append (pfx : String) (l1 l2 : List InputFile) :
    assembled pfx (l1 ++ l2)
      = ⟨(assembled pfx l1).sheets ++ (assembled pfx l2).sheets,
         (assembled pfx l1).processed ++ (assembled pfx l2).processed⟩ := by
  rw [assembled, List.foldl_append]
  exact assembled_shift pfx l2 (assembled pfx l1)

/-- Decomposition of the loop state around one file in the middle of the
list. -/
theorem assembled_middle (pfx : String) (xs ys : List InputFile) (f : InputFile) :
    (assembled pfx (xs ++ f :: ys)).sheets
      = (assembled pfx xs).sheets ++ contrib pfx f ++ (assembled pfx ys).sheets
  ∧ (assembled pfx (xs ++ f :: ys)).processed
      = (assembled pfx xs).processed ++ contribNames pfx f ++ (assembled pfx ys).processed := by
  have h1 : assembled pfx (f :: ys)
      = ⟨contrib pfx f ++ (assembled pfx ys).sheets,
         contribNames pfx f ++ (assembled pfx ys).processed⟩ := by
    rw [assembled, List.foldl_cons, assembled_shift pfx ys (process_file pfx ⟨[], []⟩ f),
      process_file_eq pfx ⟨[], []⟩ f]
    simp
  rw [assembled_append pfx xs (f :: ys), h1]
  simp [List.append_assoc]

/-- A file whose loader returns no table contributes nothing at all. -/
theorem contrib_of_load_fail (pfx : String) (f : InputFile)
    (h : clean_csv_data f.csv = none) :
    contrib pfx f = [] ∧ contribNames pfx f = [] := by
  simp [contrib, contribNames, process_file, h]

/-- When every file fails to load, the loop ends in the empty state. -/
theorem assembled_all_fail (pfx : String) : ∀ (files : List InputFile),
    (∀ f ∈ files, clean_csv_data f.csv = none) → assembled pfx files = ⟨[], []⟩ := by
  intro files
  induction files with
  | nil => intro _; rfl
  | cons f fs ih =>
    intro h
    rw [assembled, List.foldl_cons]
    have hf : process_file pfx ⟨[], []⟩ f = ⟨[], []⟩ := by
      simp [process_file, h f (List.mem_cons_self f fs)]
    rw [hf]
    exact ih (fun g hg => h g (List.mem_cons_of_mem f hg))

/-- Python's clamped `insert` produces a permutation of pushing at the
front. -/
theorem insertClamped_perm {α : Type} (n : Nat) (x : α) (l : List α) :
    List.Perm (insertClamped n x l) (x :: l) := by
  unfold insertClamped
  have h1 : List.Perm (l.take n ++ x :: l.drop n) (x :: (l.take n ++ l.drop n)) :=
    List.perm_middle
  rwa [List.take_append_drop] at h1

/-- A list is a permutation of its `i`-th element pushed onto the list with
that element erased. -/
theorem perm_cons_eraseIdx : ∀ (l : List Sheet) (i : Nat) (s : Sheet),
    l[i]? = some s → List.Perm l (s :: l.eraseIdx i) := by
  intro l
  induction l with
  | nil => intro i s h; simp at h
  | cons a l ih =>
    intro i s h
    cases i with
    | zero =>
      have ha : a = s := by simpa using h
      subst ha
      simp [List.eraseIdx]
    | succ i =>
      have h' : l[i]? = some s := by simpa using h
      have p1 : List.Perm (a :: l) (a :: (s :: l.eraseIdx i)) :=
        List.Perm.cons a (ih i s h')
      have p2 : List.Perm (a :: s :: l.eraseIdx i) (s :: a :: l.eraseIdx i) :=
        List.Perm.swap s a _
      have p3 := p1.trans p2
      simpa [List.eraseIdx] using p3

/-- `move_sheet` permutes the workbook's sheets. -/
theorem move_sheet_perm (sheets : List Sheet) (nm : String) (off : Nat) :
    List.Perm (move_sheet sheets nm off) sheets := by
  unfold move_sheet
  split
  next => exact List.Perm.refl _
  next idx h1 =>
    split
    next => exact List.Perm.refl _
    next s h2 =>
      exact (insertClamped_perm _ _ _).trans ((perm_cons_eraseIdx sheets idx s h2).symm)

/-- The whole `move_sheet` loop permutes the workbook's sheets. -/
theorem reorder_foldl_perm (pairs : List (Nat × String)) :
    ∀ ws : List Sheet,
      List.Perm
        (pairs.foldl
          (fun ws p => if p.2 ∈ ws.map Sheet.title then move_sheet ws p.2 p.1 else ws) ws)
        ws := by
  induction pairs with
  | nil => intro ws; exact List.Perm.refl ws
  | cons p pairs ih =>
    intro ws
    simp only [List.foldl_cons]
    refine (ih _).trans ?_
    by_cases h : p.2 ∈ ws.map Sheet.title
    · rw [if_pos h]; exact move_sheet_perm ws p.2 p.1
    · rw [if_neg h]

/-- Reordering never gains or loses a sheet. -/
theorem reorder_sheets_perm (sheets : List Sheet) (new_order : List String) :
    List.Perm (reorder_sheets sheets new_order) sheets :=
  reorder_foldl_perm new_order.enum sheets

/-- The saved workbook is a permutation of the assembled sheets plus the
metadata sheet. -/
theorem convert_perm (files : List InputFile) (pfx : String) (now : CellValue) :
    List.Perm (convert_csv_to_excel files pfx now)
      ((assembled pfx files).sheets ++ [metadata_sheet now]) :=
  reorder_sheets_perm _ _

/-- The keep-if foldl of the canonical pass is a `filter`. -/
theorem keep_foldl_eq_filter (p : String → Prop) [DecidablePred p] :
    ∀ (l acc : List String),
      l.foldl (fun acc s => if p s then acc ++ [s] else acc) acc
        = acc ++ l.filter (fun s => decide (p s)) := by
  intro l
  induction l with
  | nil => intro acc; simp
  | cons x l ih =>
    intro acc
    simp only [List.foldl_cons, List.filter_cons]
    by_cases hx : p x
    · rw [if_pos hx, ih]
      simp [hx]
    · rw [if_neg hx, ih]
      simp [hx]

/-- The append-if-new foldl of the second pass, on a duplicate-free list. -/
theorem dedupe_foldl_eq : ∀ (l : List String), l.Nodup → ∀ acc : List String,
    l.foldl (fun acc s => if s ∈ acc then acc else acc ++ [s]) acc
      = acc ++ l.filter (fun s => decide (s ∉ acc)) := by
  intro l
  induction l with
  | nil => intro _ acc; simp
  | cons x l ih =>
    intro hnd acc
    have hx_l : x ∉ l := (List.nodup_cons.mp hnd).1
    have hl : l.Nodup := (List.nodup_cons.mp hnd).2
    simp only [List.foldl_cons, List.filter_cons]
    by_cases hx : x ∈ acc
    · rw [if_pos hx, ih hl acc]
      simp [hx]
    · rw [if_neg hx, ih hl (acc ++ [x])]
      have hfc : l.filter (fun s => decide (s ∉ acc ++ [x]))
          = l.filter (fun s => decide (s ∉ acc)) := by
        refine List.filter_congr ?_
        intro s hs
        have hsx : s ≠ x := fun hh => hx_l (hh ▸ hs)
        simp [List.mem_append, hsx]
      rw [hfc]
      simp [hx, List.append_assoc]

/-- The second pass of `build_new_order` keeps everything already present
and adds everything it walks over. -/
theorem mem_dedupe_foldl (s : String) : ∀ (l acc : List String),
    s ∈ l ∨ s ∈ acc →
      s ∈ l.foldl (fun acc sheet => if sheet ∈ acc then acc else acc ++ [sheet]) acc := by
  intro l
  induction l with
  | nil =>
    intro acc h
    rcases h with h | h
    · simp at h
    · simpa using h
  | cons x l ih =>
    intro acc h
    simp only [List.foldl_cons]
    by_cases hx : x ∈ acc
    · rw [if_pos hx]
      apply ih
      rcases h with h | h
      · rcases List.mem_cons.mp h with h | h
        · exact Or.inr (h ▸ hx)
        · exact Or.inl h
      · exact Or.inr h
    · rw [if_neg hx]
      apply ih
      rcases h with h | h
      · rcases List.mem_cons.mp h with h | h
        · exact Or.inr (by simp [h])
        · exact Or.inl h
      · exact Or.inr (by simp [h])

/-- Anything processed ends up somewhere in `new_order`. -/
theorem mem_build_new_order (s : String) (processed : List String)
    (h : s ∈ processed) : s ∈ build_new_order processed := by
  simp only [build_new_order]
  split
  · exact mem_dedupe_foldl s processed _ (Or.inl h)
  · exact List.mem_append_left _ (mem_dedupe_foldl s processed _ (Or.inl h))

/-- Two loop states with equal fields are equal. -/
theorem ProcState.ext_of (a b : ProcState) (h1 : a.sheets = b.sheets)
    (h2 : a.processed = b.processed) : a = b := by
  cases a; cases b; simp_all

/-- State form of `assembled_middle`. -/
theorem assembled_middle_state (pfx : String) (xs ys : List InputFile) (f : InputFile) :
    assembled pfx (xs ++ f :: ys)
      = ⟨(assembled pfx xs).sheets ++ contrib pfx f ++ (assembled pfx ys).sheets,
         (assembled pfx xs).processed ++ contribNames pfx f ++ (assembled pfx ys).processed⟩ :=
  ProcState.ext_of _ _ (assembled_middle pfx xs ys f).1 (assembled_middle pfx xs ys f).2

/-- On a duplicate-free processed list, `new_order` is exactly: the canonical
names present among the processed sheets (with `vMetaData` always kept, at
its canonical — last — position), followed by the processed names not in the
canonical list, in processing order. -/
theorem build_new_order_eq (processed : List String) (hnd : processed.Nodup) :
    build_new_order processed
      = STANDARD_SHEET_ORDER.filter (fun s => decide (s ∈ processed ∨ s = "vMetaData"))
        ++ processed.filter (fun s => decide (s ∉ STANDARD_SHEET_ORDER)) := by
  have ho1 : STANDARD_SHEET_ORDER.foldl
      (fun acc sheet => if sheet ∈ processed ∨ sheet = "vMetaData" then acc ++ [sheet] else acc)
      []
      = STANDARD_SHEET_ORDER.filter (fun s => decide (s ∈ processed ∨ s = "vMetaData")) := by
    rw [keep_foldl_eq_filter (fun s => s ∈ processed ∨ s = "vMetaData") STANDARD_SHEET_ORDER []]
    rfl
  have hmeta : "vMetaData"
      ∈ STANDARD_SHEET_ORDER.filter (fun s => decide (s ∈ processed ∨ s = "vMetaData")) := by
    refine List.mem_filter.mpr ⟨by decide, by simp⟩
  have hfc : processed.filter
        (fun s => decide (s ∉ STANDARD_SHEET_ORDER.filter
          (fun s => decide (s ∈ processed ∨ s = "vMetaData"))))
      = processed.filter (fun s => decide (s ∉ STANDARD_SHEET_ORDER)) := by
    refine List.filter_congr ?_
    intro s hs
    simp [List.mem_filter, hs]
  simp only [build_new_order, ho1]
  rw [dedupe_foldl_eq processed hnd, hfc,
    if_pos (List.mem_append_left _ hmeta)]

/-! ## Claim C1 — final sheet ordering -/

/-- Claim C1 (amended): the conversion computes its intended order by walking
`STANDARD_SHEET_ORDER` and keeping each canonical name present among the
processed sheets (the metadata sheet name always kept), then appending the
processed names not in the canonical list in their original processing
order; but since `vMetaData` is itself the last entry of
`STANDARD_SHEET_ORDER`, the metadata sheet is placed at its canonical
position BEFORE the unrecognized sheets, not after them — for processed
sheets `vNetwork`, `vInfo`, `vCustomX` the saved workbook's order is
`[vInfo, vNetwork, vMetaData, vCustomX]`. -/
theorem C1_sheet_ordering :
    (∀ processed : List String, processed.Nodup →
        build_new_order processed
          = STANDARD_SHEET_ORDER.filter (fun s => decide (s ∈ processed ∨ s = "vMetaData"))
            ++ processed.filter (fun s => decide (s ∉ STANDARD_SHEET_ORDER)))
  ∧ (assembled "RVTools_tab" c1Files).processed = ["vNetwork", "vInfo", "vCustomX"]
  ∧ (convert_csv_to_excel c1Files "RVTools_tab" (CellValue.str "ts")).map Sheet.title
      = ["vInfo", "vNetwork", "vMetaData", "vCustomX"] :=
  ⟨build_new_order_eq, by decide, by decide⟩

/-- Witness for C1 at the claim's own processed set. -/
theorem C1_sheet_ordering_witness :
    build_new_order ["vNetwork", "vInfo", "vCustomX"]
      = STANDARD_SHEET_ORDER.filter
          (fun s => decide (s ∈ ["vNetwork", "vInfo", "vCustomX"] ∨ s = "vMetaData"))
        ++ ["vNetwork", "vInfo", "vCustomX"].filter
            (fun s => decide (s ∉ STANDARD_SHEET_ORDER)) :=
  C1_sheet_ordering.1 ["vNetwork", "vInfo", "vCustomX"] (by decide)

/-- Counterexample to C1 as stated: with processed sheets `vNetwork`,
`vInfo`, `vCustomX`, the saved workbook's order is NOT
`[vInfo, vNetwork, vCustomX, vMetaData]` — the metadata sheet does not come
last; it lands before the unrecognized `vCustomX`. -/
theorem C1_counterexample :
    (assembled "RVTools_tab" c1Files).processed = ["vNetwork", "vInfo", "vCustomX"]
  ∧ (convert_csv_to_excel c1Files "RVTools_tab" (CellValue.str "ts")).map Sheet.title
      ≠ ["vInfo", "vNetwork", "vCustomX", "vMetaData"] :=
  ⟨by decide, by decide⟩

/-! ## Claim C7 — per-file error recovery -/

/-- Claim C7 (confirmed): a file whose loader fails is skipped outright — the
run's state is as if the file had not been listed — and in every case one
file's contribution is confined to its own slot: the sheets and recorded
names of all preceding and following files are exactly what they would be in
any other run, so no single file's failure aborts processing of the rest. -/
theorem C7_per_file_recovery (pfx : String) (xs ys : List InputFile) (f : InputFile) :
    (clean_csv_data f.csv = none →
        assembled pfx (xs ++ f :: ys) = assembled pfx (xs ++ ys))
  ∧ (assembled pfx (xs ++ f :: ys)).sheets
      = (assembled pfx xs).sheets ++ contrib pfx f ++ (assembled pfx ys).sheets
  ∧ (assembled pfx (xs ++ f :: ys)).processed
      = (assembled pfx xs).processed ++ contribNames pfx f ++ (assembled pfx ys).processed := by
  refine ⟨?_, (assembled_middle pfx xs ys f).1, (assembled_middle pfx xs ys f).2⟩
  intro hnone
  obtain ⟨hs, hn⟩ := contrib_of_load_fail pfx f hnone
  rw [assembled_middle_state pfx xs ys f, hs, hn, assembled_append pfx xs ys]
  simp

/-- Witness for C7: a file rejected by every parse attempt leaves the run of
the three example files untouched. -/
theorem C7_per_file_recovery_witness :
    assembled "RVTools_tab"
        ([] ++ (⟨"RVTools_tabBroken.csv", hopelessCSV, none⟩ : InputFile) :: c1Files)
      = assembled "RVTools_tab" ([] ++ c1Files) :=
  (C7_per_file_recovery "RVTools_tab" [] c1Files
    ⟨"RVTools_tabBroken.csv", hopelessCSV, none⟩).1 rfl

/-! ## Claim C9 — all files failing still yields the metadata workbook -/

/-- Claim C9 (confirmed): when at least one file was discovered but every file
fails to load, the conversion still completes and the saved workbook holds
exactly one sheet — the synthetic `vMetaData` sheet, which is created
unconditionally. -/
theorem C9_metadata_only (pfx : String) (now : CellValue) (files : List InputFile)
    (_hne : files ≠ []) (hfail : ∀ f ∈ files, clean_csv_data f.csv = none) :
    convert_csv_to_excel files pfx now = [metadata_sheet now] := by
  unfold convert_csv_to_excel
  rw [assembled_all_fail pfx files hfail]
  rfl

/-- Witness for C9: one discovered file, every parse attempt failing. -/
theorem C9_metadata_only_witness :
    convert_csv_to_excel [⟨"RVTools_tabvCPU.csv", hopelessCSV, none⟩] "RVTools_tab"
        (CellValue.str "ts")
      = [metadata_sheet (CellValue.str "ts")] :=
  C9_metadata_only "RVTools_tab" (CellValue.str "ts") _ (List.cons_ne_nil _ _)
    (by
      intro f hf
      have hf2 := List.mem_singleton.mp hf
      subst hf2
      rfl)

/-! ## Claim C10 — per-file processing is not atomic on the workbook -/

/-- Claim C10 (confirmed): the sheet is created and its name recorded before
any cell is written, so a file whose write/format phase dies after `k` rows
leaves its truncated sheet in the saved workbook, its name in
`processed_sheets`, and its name in the computed final ordering — the
workbook is not rolled back. -/
theorem C10_nonatomic (pfx : String) (now : CellValue) (xs ys : List InputFile)
    (f : InputFile) (t : Table) (k : Nat)
    (hload : clean_csv_data f.csv = some t) (hfail : f.failAt = some k) :
    truncated_sheet (get_sheet_name_from_filename f.filename pfx) t k
        ∈ convert_csv_to_excel (xs ++ f :: ys) pfx now
  ∧ get_sheet_name_from_filename f.filename pfx
        ∈ (assembled pfx (xs ++ f :: ys)).processed
  ∧ get_sheet_name_from_filename f.filename pfx
        ∈ build_new_order ((assembled pfx (xs ++ f :: ys)).processed) := by
  have hcontrib : contrib pfx f
      = [truncated_sheet (get_sheet_name_from_filename f.filename pfx) t k] := by
    simp [contrib, process_file, hload, hfail]
  have hnames : contribNames pfx f = [get_sheet_name_from_filename f.filename pfx] := by
    simp [contribNames, process_file, hload, hfail]
  have hm := assembled_middle pfx xs ys f
  have hproc : get_sheet_name_from_filename f.filename pfx
      ∈ (assembled pfx (xs ++ f :: ys)).processed := by
    rw [hm.2, hnames]
    simp
  refine ⟨?_, hproc, mem_build_new_order _ _ hproc⟩
  rw [(convert_perm (xs ++ f :: ys) pfx now).mem_iff]
  apply List.mem_append_left
  rw [hm.1, hcontrib]
  simp

/-- Witness for C10: a single file that loads and then dies before writing
any data row leaves a header-only unstyled sheet named `vHost` in the saved
workbook. -/
theorem C10_nonatomic_witness :
    truncated_sheet "vHost" tblA 0
        ∈ convert_csv_to_excel
            ([] ++ (⟨"RVTools_tabvHost.csv", simpleCSV tblA, some 0⟩ : InputFile) :: [])
            "RVTools_tab" (CellValue.str "ts")
  ∧ "vHost" ∈ (assembled "RVTools_tab"
        ([] ++ (⟨"RVTools_tabvHost.csv", simpleCSV tblA, some 0⟩ : InputFile) :: [])).processed := by
  have h := C10_nonatomic "RVTools_tab" (CellValue.str "ts") [] []
    ⟨"RVTools_tabvHost.csv", simpleCSV tblA, some 0⟩ tblA 0 (by decide) rfl
  have hnm : get_sheet_name_from_filename "RVTools_tabvHost.csv" "RVTools_tab" = "vHost" := by
    decide
  rw [hnm] at h
  exact ⟨h.1, h.2.1⟩

/-! ## Claim C8 — discovery failure modes -/

/-- Claim C8 (amended): with the recursive flag off, a missing input
directory makes discovery raise the filesystem error, which `main` does not
catch (run-fatal); with the recursive flag on, however, `os.walk` silently
swallows the error and discovery returns the empty list.  Discovery on an
existing directory never errors — an empty result is just an empty list —
and when zero candidate files are found the tool reports and exits without
producing any output. -/
theorem C8_discovery (d : FileSystemDir) (pfxOpt : Option String) :
    (d.present = false →
        find_csv_files d false pfxOpt = Except.error FsError.fileNotFound
      ∧ find_csv_files d true pfxOpt = Except.ok [])
  ∧ (d.present = true → ∀ r : Bool,
        find_csv_files d r pfxOpt
          = Except.ok ((if r then d.walkFiles else d.entries).filter
              (matches_csv_filter pfxOpt)))
  ∧ (∀ (recursive : Bool) (pfxArg : String) (csvOf : String → CSVFile)
        (failOf : String → Option Nat) (now : CellValue),
        find_csv_files d recursive (if pfxArg = "" then none else some pfxArg)
          = Except.ok [] →
        main_run d recursive pfxArg csvOf failOf now = RunResult.noFiles) := by
  refine ⟨?_, ?_, ?_⟩
  · intro h
    constructor
    · simp [find_csv_files, h]
    · simp [find_csv_files, h]
  · intro h r
    cases r <;> simp [find_csv_files, h]
  · intro recursive pfxArg csvOf failOf now hfind
    simp [main_run, hfind]

/-- Witness for C8: a missing directory in both modes, an existing empty
directory, and a zero-candidate run ending in the no-output report. -/
theorem C8_discovery_witness :
    find_csv_files ⟨false, [], []⟩ false (some "RVTools_tab")
        = Except.error FsError.fileNotFound
  ∧ find_csv_files ⟨true, [], []⟩ false (some "RVTools_tab") = Except.ok []
  ∧ main_run ⟨true, [], []⟩ false "RVTools_tab" (fun _ => hopelessCSV) (fun _ => none)
      (CellValue.str "ts") = RunResult.noFiles :=
  ⟨((C8_discovery ⟨false, [], []⟩ (some "RVTools_tab")).1 rfl).1,
   (C8_discovery ⟨true, [], []⟩ (some "RVTools_tab")).2.1 rfl false,
   (C8_discovery ⟨true, [], []⟩ (some "RVTools_tab")).2.2 false "RVTools_tab"
     (fun _ => hopelessCSV) (fun _ => none) (CellValue.str "ts") rfl⟩

/-- Counterexample to C8 as stated: with the recursive flag on, discovery on
a nonexistent directory does NOT fail with a filesystem error — `os.walk`
ignores the `scandir` error and the run takes the "no CSV files found" exit
instead. -/
theorem C8_counterexample :
    find_csv_files ⟨false, [], []⟩ true (some "RVTools_tab") = Except.ok []
  ∧ find_csv_files ⟨false, [], []⟩ true (some "RVTools_tab")
      ≠ Except.error FsError.fileNotFound
  ∧ main_run ⟨false, [], []⟩ true "RVTools_tab" (fun _ => hopelessCSV) (fun _ => none)
      (CellValue.str "ts") = RunResult.noFiles := by
  refine ⟨rfl, ?_, rfl⟩
  intro h
  exact Except.noConfusion h

end RVTools
